import Mathlib

/-!
Shallow embedding of the cache-and-redirect subsystem of goproxy.cn
(`handler/goproxy.go`): the `goproxyCacher` (`Get`, `Set`, the background
synchronizer `startSetCache`), the redirect handler `hGoproxy`, the
eligibility predicate `isAutoRedirectableGoproxyCache`, and the shutdown
cleanup job registered in `init`.

External collaborators (the minio object-store client, `crypto/md5`,
`crypto/sha256`) are modelled as oracles/parameters; Go standard-library
string and hex routines used by the code are embedded directly.
-/

namespace GoproxyCN

/-! ## Go standard-library string helpers -/

/-- Go `strings.HasPrefix(s, p)`: whether `p` is a leading substring of `s`. -/
def goHasPfx (s p : String) : Bool :=
  p.data.isPrefixOf s.data

/-- Whether `sub` is a leading substring of `l` or of one of its suffixes. -/
def containsAux (sub : List Char) : List Char → Bool
  | [] => sub.isPrefixOf []
  | c :: rest => sub.isPrefixOf (c :: rest) || containsAux sub rest

/-- Go `strings.Contains(s, sub)`: whether `sub` occurs as a substring of `s`. -/
def goContains (s sub : String) : Bool :=
  containsAux sub.data s.data

/-- Go `strings.TrimPrefix(s, p)`: `s` without the leading `p`, or `s`
unchanged when `p` is not a leading substring. -/
def goTrimPfx (s p : String) : String :=
  if goHasPfx s p then String.mk (s.data.drop p.data.length) else s

/-- Scan the characters of a path in reverse order (last character first),
collecting the reversed extension: the characters up to and including the
first `'.'` seen, provided no `'/'` is seen first. Mirrors the loop of Go
`path.Ext`, which walks indices from the end of the string. -/
def extScanRev : List Char → Option (List Char)
  | [] => none
  | c :: rest =>
    if c = '/' then none
    else if c = '.' then some [c]
    else
      match extScanRev rest with
      | none => none
      | some e => some (c :: e)

/-- Go `path.Ext(s)`: the suffix beginning at the final dot in the final
slash-separated element of `s`; empty if there is no dot. -/
def goPathExt (s : String) : String :=
  match extScanRev s.data.reverse with
  | none => ""
  | some e => String.mk e.reverse

/-- Split a character list at `'/'` separators, keeping empty segments;
`cur` accumulates the current segment's characters in reverse. -/
def splitSlashAux : List Char → List Char → List String
  | cur, [] => [String.mk cur.reverse]
  | cur, c :: rest =>
    if c = '/' then String.mk cur.reverse :: splitSlashAux [] rest
    else splitSlashAux (c :: cur) rest

/-- The slash-separated segments of a path, as by `strings.Split(s, "/")`. -/
def splitSlash (s : String) : List String :=
  splitSlashAux [] s.data

/-- Join segments with `"/"` separators, undoing `splitSlash`. -/
def joinSlash : List String → String
  | [] => ""
  | [s] => s
  | s :: rest => s ++ "/" ++ joinSlash rest

/-- One step of Go `path.Clean` expressed on slash-separated segments: push a
normal segment, skip `""` and `"."`, and on `".."` pop the last pushed
segment; at an empty stack `".."` is dropped for rooted paths and kept for
relative ones. `stack` holds processed segments in reverse order. -/
def cleanSegs (rooted : Bool) : List String → List String → List String
  | stack, [] => stack
  | stack, seg :: rest =>
    if seg = "" ∨ seg = "." then cleanSegs rooted stack rest
    else if seg = ".." then
      match stack with
      | [] =>
        if rooted then cleanSegs rooted [] rest
        else cleanSegs rooted [".."] rest
      | top :: stack' =>
        if top = ".." then cleanSegs rooted (".." :: top :: stack') rest
        else cleanSegs rooted stack' rest
    else cleanSegs rooted (seg :: stack) rest

/-- Go `path.Clean(p)`, per its documented rules: collapse repeated slashes,
eliminate `.` elements, eliminate each `..` together with the preceding
non-`..` element, and eliminate `..` elements that begin a rooted path; the
result of cleaning an empty path is `"."`. -/
def goPathClean (p : String) : String :=
  if p = "" then "."
  else
    let rooted := goHasPfx p "/"
    let segs := (cleanSegs rooted [] (splitSlash p)).reverse
    let joined := joinSlash segs
    if rooted then
      "/" ++ joined
    else if joined = "" then "."
    else joined

/-! ## Go `encoding/hex` decoding -/

/-- Go `encoding/hex.fromHexChar`: the value of a hexadecimal digit
character, or `none` for any other character. -/
def hexCharVal (c : Char) : Option Nat :=
  if '0' ≤ c ∧ c ≤ '9' then some (c.toNat - '0'.toNat)
  else if 'a' ≤ c ∧ c ≤ 'f' then some (c.toNat - 'a'.toNat + 10)
  else if 'A' ≤ c ∧ c ≤ 'F' then some (c.toNat - 'A'.toNat + 10)
  else none

/-- Go `encoding/hex.Decode` on a string's characters: decode two hex digits
per byte, stopping at the first invalid digit or at a dangling trailing
digit. Returns the bytes decoded before any error together with an error-free
flag, matching Go's convention that `DecodeString` returns the bytes decoded
before the error. -/
def goHexDecode : List Char → List Nat × Bool
  | [] => ([], true)
  | [_] => ([], false)
  | a :: b :: rest =>
    match hexCharVal a, hexCharVal b with
    | some x, some y =>
      let r := goHexDecode rest
      ((16 * x + y) :: r.1, r.2)
    | _, _ => ([], false)

/-! ## Object-store model

The minio client (`qiniuKodoClient`) is an external collaborator: each call
site receives the call's outcome as an oracle value. Errors carry an
arbitrary payload type `ε`; the classification performed by
`isMinIOObjectNotExist` (repository code outside this file's scope) is
modelled, per the spec's NotFound/Other error taxonomy, by the distinction
between the `errNotFound` and `errOther` constructors. -/

/-- Metadata returned by `StatObject` for a present object. -/
structure ObjectInfo where
  key : String
  eTag : String
  lastModified : Int
  size : Int
deriving DecidableEq, Repr

/-- Outcome of a `StatObject` call: the object's metadata, an error
classified by `isMinIOObjectNotExist` as object-not-found, or any other
error with payload `e`. -/
inductive StatRes (ε : Type) where
  | found (info : ObjectInfo)
  | errNotFound
  | errOther (e : ε)
deriving DecidableEq, Repr

/-- Error returned by `goproxyCacher.Get`: the `fs.ErrNotExist` sentinel, or
a store error propagated unchanged. -/
inductive GetErr (ε : Type) where
  | fsErrNotExist
  | store (e : ε)
deriving DecidableEq, Repr

/-- Read view returned by `goproxyCacher.Get` (`goproxyCacheReader`): a
handle to the object's byte stream plus the store-reported modification time
and the derived checksum. The stream itself is opaque; `streamKey` records
which object key the `GetObject` call opened. -/
structure GoproxyCacheReader where
  streamKey : String
  modTime : Int
  checksum : List Nat
deriving DecidableEq, Repr

/-- Checksum derivation of `goproxyCacher.Get` (goproxy.go lines 258-262):
hex-decode the entity tag ignoring any decode error; if the decoded byte
count differs from `md5.Size = 16`, replace it with the MD5 digest of the
entity-tag string. `md5Sum` stands for Go's `crypto/md5` `Sum` function,
taken as a parameter. -/
def deriveChecksum (md5Sum : String → List Nat) (eTag : String) : List Nat :=
  let checksum := (goHexDecode eTag.data).1
  if checksum.length ≠ 16 then md5Sum eTag else checksum

/-- Concrete stand-in for Go `crypto/md5.Sum` used on one entity tag: its
value at `"00000000000000000000000000000000zz"` is the actual MD5 digest of
that 34-character string (`07ff842b0614e08e9cab9f00633ef44a`). -/
def md5Oracle : String → List Nat := fun s =>
  if s = "00000000000000000000000000000000zz" then
    [7, 255, 132, 43, 6, 20, 224, 142, 156, 171, 159, 0, 99, 62, 244, 74]
  else []

/-- Embedding of `goproxyCacher.Get` (goproxy.go lines 240-279). `stat` is
the outcome of the `StatObject` call for `name`; `getRes` is the outcome of
the `GetObject` call (`none` on success, `some e` when it fails with `e`). -/
def goproxyCacherGet (md5Sum : String → List Nat) (_name : String)
    (stat : StatRes ε) (getRes : Option ε) :
    Except (GetErr ε) GoproxyCacheReader :=
  match stat with
  | .errNotFound => .error .fsErrNotExist
  | .errOther e => .error (.store e)
  | .found info =>
    let checksum := deriveChecksum md5Sum info.eTag
    match getRes with
    | some e => .error (.store e)
    | none =>
      .ok { streamKey := info.key
            modTime := info.lastModified
            checksum := checksum }

/-! ## Redirect eligibility and the `hGoproxy` handler -/

/-- Embedding of `isAutoRedirectableGoproxyCache` (goproxy.go lines
349-353). -/
def isAutoRedirectableGoproxyCache (name : String) : Bool :=
  !goHasPfx name "sumdb/" && goContains name "/@v/" && (goPathExt name == ".zip")

/-- Arguments of the `Presign` call issued by `hGoproxy` (goproxy.go lines
134-145): object key, expiry in seconds, and the extra query parameters. -/
structure PresignCall where
  key : String
  expirySeconds : Nat
  query : List (String × List String)
deriving DecidableEq, Repr

/-- Observable outcome of `hGoproxy` for one request: the request is served
by the wrapped `goproxy.Goproxy` handler (`ServeHTTP`), or a redirect to the
URL pre-signed with the recorded arguments is issued, or the handler returns
an error to the HTTP layer. -/
inductive HandlerRes (ε : Type) where
  | servedProxy
  | redirect (call : PresignCall)
  | err (e : ε)
deriving DecidableEq, Repr

/-- Embedding of `hGoproxy` (goproxy.go lines 95-151). `autoRedirect` and
`minSize` are the `goproxyAutoRedirect` / `goproxyAutoRedirectMinSize`
configuration values; `rawPath` is the request's raw path; `stat` is the
outcome of the `StatObject` call; `presignErr` is `some e` when the
`Presign` call fails with `e`. The fetch-timeout wrapping of the request
context has no observable effect here and is omitted. -/
def hGoproxy (autoRedirect : Bool) (minSize : Int) (rawPath : String)
    (stat : StatRes ε) (presignErr : Option ε) : HandlerRes ε :=
  let name := goTrimPfx (goPathClean rawPath) "/"
  if !autoRedirect || !isAutoRedirectableGoproxyCache name then .servedProxy
  else
    match stat with
    | .errNotFound => .servedProxy
    | .errOther e => .err e
    | .found info =>
      if info.size < minSize then .servedProxy
      else
        match presignErr with
        | some e => .err e
        | none =>
          .redirect
            { key := info.key
              expirySeconds := 7 * 24 * 60 * 60
              query := [("response-cache-control", ["public, max-age=604800"])] }

/-! ## The `goproxyCacher` staging state and `Set` -/

/-- State of the `goproxyCacher` relevant to staging: the staging root
directory, the staged files on disk (path with byte size), the pending-set
registry `settingCaches` (cache key to staged path, newest binding first),
and whether `startSetCacheOnce` has fired. -/
structure CacherState where
  localCacheRoot : String
  files : List (String × Nat)
  settingCaches : List (String × String)
  started : Bool
deriving DecidableEq, Repr

/-- Paths of the staged files present on disk. -/
def CacherState.paths (st : CacherState) : List String :=
  st.files.map (·.1)

/-- Nondeterministic outcomes of the filesystem calls made by one `Set`
call: whether `os.Stat` fails with an error other than `fs.ErrNotExist`
(only possible when the file is absent; a stat of a present staged file
succeeds), and whether `os.Create`, `io.Copy`, or `Close` fail. -/
structure SetOps where
  statOther : Bool
  createErr : Bool
  copyErr : Bool
  closeErr : Bool
deriving DecidableEq, Repr

/-- Errors surfaced by the `Set` model, tagging which call failed. -/
inductive SetErr where
  | statErr
  | createErr
  | copyErr
  | closeErr
deriving DecidableEq, Repr

/-- Result of one `Set` call: the new state, the returned error (`none` is
Go's `nil`), and whether the content stream was read (an `io.Copy` from it
was started). -/
structure SetResult where
  state : CacherState
  result : Option SetErr
  contentRead : Bool
deriving DecidableEq, Repr

/-- Path of the staged file for cache key `name`:
`filepath.Join(root, hex.EncodeToString(sha256.Sum256(name)))`, with the
digest function a parameter. -/
def stagedPath (digest : String → String) (root name : String) : String :=
  root ++ "/" ++ digest name

/-- Embedding of `goproxyCacher.Set` (goproxy.go lines 282-327). `digest`
stands for `hex.EncodeToString ∘ sha256.Sum256` over the cache key (Go
`crypto/sha256`, taken as a parameter). `size` is the number of bytes
`io.Copy` writes when it succeeds. Under the `settingMutex`: if the staged
file already exists, return `nil` at once; a failing stat or create returns
that error. Otherwise the file is created, the content is copied in and the
file closed; any copy/close failure removes the partial file (so the net
state change of a failing call is nil) and returns the error, and only full
success stores the key-to-path binding in `settingCaches`
(`sync.Map.Store`, modelled as replace-or-insert on the association
list). -/
def goproxyCacherSet (digest : String → String) (st : CacherState)
    (name : String) (size : Nat) (ops : SetOps) : SetResult :=
  let st := { st with started := true }
  let fileName := stagedPath digest st.localCacheRoot name
  if fileName ∈ st.paths then
    { state := st, result := none, contentRead := false }
  else if ops.statOther then
    { state := st, result := some .statErr, contentRead := false }
  else if ops.createErr then
    { state := st, result := some .createErr, contentRead := false }
  else if ops.copyErr then
    { state := st, result := some .copyErr, contentRead := true }
  else if ops.closeErr then
    { state := st, result := some .closeErr, contentRead := true }
  else
    { state :=
        { st with
          files := (fileName, size) :: st.files
          settingCaches :=
            (name, fileName) :: st.settingCaches.filter (·.1 ≠ name) }
      result := none
      contentRead := true }

/-! ## The synchronizer's per-key step -/

/-- Nondeterministic outcomes of the calls made by one per-key step of the
synchronizer's `settingCaches.Range` pass: whether `os.Open` fails with an
error other than `fs.ErrNotExist` (an absent file always yields
`fs.ErrNotExist`), whether the opened file's `Stat` fails, the outcome of
the `StatObject` call, and whether `PutObject` fails. -/
structure SyncOps (ε : Type) where
  openOther : Bool
  fstatErr : Bool
  stat : StatRes ε
  putErr : Bool

/-- Arguments of a `PutObject` call issued by the synchronizer (goproxy.go
lines 216-225): object key, byte count, content type, and the
`DisableMultipart` option. -/
structure PutArgs where
  key : String
  size : Nat
  contentType : String
  disableMultipart : Bool
deriving DecidableEq, Repr

/-- Embedding of one per-key iteration of `goproxyCacher.startSetCache`'s
`Range` callback (goproxy.go lines 170-234) for registry entry `k ↦ v`.
Returns the new state together with the `PutObject` call issued during the
step, if any. Open the staged file (absent: drop the registry entry; other
open error or a failing file-stat: leave everything); stat the remote
object (present: drop the entry and delete the file without uploading; stat
error other than not-found: leave everything); otherwise upload with the
content type inferred from `path.Ext(k)` and multipart disabled exactly for
sizes below `256<<20`, dropping the entry and deleting the file only when
the upload succeeds. -/
def syncStep (st : CacherState) (k v : String) (ops : SyncOps ε) :
    CacherState × Option PutArgs :=
  match (st.files.lookup v : Option Nat) with
  | none =>
    ({ st with settingCaches := st.settingCaches.filter (·.1 ≠ k) }, none)
  | some size =>
    if ops.openOther then (st, none)
    else if ops.fstatErr then (st, none)
    else
      match ops.stat with
      | .found _ =>
        ({ st with
           settingCaches := st.settingCaches.filter (·.1 ≠ k)
           files := st.files.filter (·.1 ≠ v) }, none)
      | .errOther _ => (st, none)
      | .errNotFound =>
        let contentType :=
          if goPathExt k = ".info" then "application/json; charset=utf-8"
          else if goPathExt k = ".mod" then "text/plain; charset=utf-8"
          else if goPathExt k = ".zip" then "application/zip"
          else ""
        let args : PutArgs :=
          { key := k
            size := size
            contentType := contentType
            disableMultipart := size < 256 <<< 20 }
        if ops.putErr then (st, some args)
        else
          ({ st with
             settingCaches := st.settingCaches.filter (·.1 ≠ k)
             files := st.files.filter (·.1 ≠ v) }, some args)

/-! ## Shutdown cleanup job -/

/-- The retry loop of the shutdown job registered in `init` (goproxy.go
lines 77-85), with `n` iterations remaining and `i` the index of the next
attempt: each iteration sleeps one second and then attempts
`os.RemoveAll(goproxyLocalCacheRoot)`, whose success is given by the oracle
`ok`; the loop breaks at the first success. Returns the number of attempts
made (equal to the number of one-second sleeps) and whether the staging
root was removed. -/
def removeAllLoop (ok : Nat → Bool) : Nat → Nat → Nat × Bool
  | _, 0 => (0, false)
  | i, n + 1 =>
    if ok i then (1, true)
    else
      let r := removeAllLoop ok (i + 1) n
      (r.1 + 1, r.2)

/-- The shutdown job: `for i := 0; i < 60; i++ { sleep; RemoveAll; break on
success }`. -/
def shutdownJob (ok : Nat → Bool) : Nat × Bool :=
  removeAllLoop ok 0 60

/-! ## Helper lemmas -/

/-- The substring scan `containsAux` decides the infix relation. -/
theorem containsAux_iff (sub l : List Char) :
    containsAux sub l = true ↔ sub <:+: l := by
  induction l with
  | nil =>
    simp [containsAux, List.isPrefixOf_iff_prefix, List.prefix_nil,
      List.infix_nil]
  | cons c rest ih =>
    simp [containsAux, List.isPrefixOf_iff_prefix, ih, List.infix_cons_iff,
      Bool.or_eq_true]

/-- Hex decoding of an even-length string of hexadecimal digits succeeds and
yields one byte per digit pair. -/
theorem goHexDecode_valid :
    ∀ l : List Char, (∀ c ∈ l, (hexCharVal c).isSome) → l.length % 2 = 0 →
      (goHexDecode l).2 = true ∧ (goHexDecode l).1.length = l.length / 2
  | [], _, _ => by simp [goHexDecode]
  | [c], _, hlen => by simp at hlen
  | a :: b :: rest, hval, hlen => by
    obtain ⟨x, hx⟩ := Option.isSome_iff_exists.mp (hval a (by simp))
    obtain ⟨y, hy⟩ := Option.isSome_iff_exists.mp (hval b (by simp))
    have ih := goHexDecode_valid rest
      (fun c hc => hval c (by simp [hc])) (by simp at hlen ⊢; omega)
    simp only [goHexDecode, hx, hy, List.length_cons]
    refine ⟨ih.1, ?_⟩
    simp [ih.2]
    omega

/-! ## Claim theorems -/

/-- C5: `isAutoRedirectableGoproxyCache name` is `true` iff `name` does not
have the leading substring `"sumdb/"`, contains the substring `"/@v/"`, and
has `path.Ext` exactly `".zip"`; in particular it is `true` for
`"example.com/mod/@v/v1.0.0.zip"` and `false` for
`"sumdb/example.com/lookup/mod@v1.0.0"` and for
`"example.com/mod/@v/v1.0.0.info"`. -/
theorem isAutoRedirectable_characterization :
    (∀ name : String,
      isAutoRedirectableGoproxyCache name = true ↔
        ¬ "sumdb/".data <+: name.data ∧
        "/@v/".data <:+: name.data ∧
        goPathExt name = ".zip") ∧
    isAutoRedirectableGoproxyCache "example.com/mod/@v/v1.0.0.zip" = true ∧
    isAutoRedirectableGoproxyCache "sumdb/example.com/lookup/mod@v1.0.0" = false ∧
    isAutoRedirectableGoproxyCache "example.com/mod/@v/v1.0.0.info" = false := by
  refine ⟨fun name => ?_, rfl, rfl, rfl⟩
  simp [isAutoRedirectableGoproxyCache, goHasPfx, goContains,
    containsAux_iff, Bool.and_eq_true, Bool.not_eq_true', and_assoc,
    Bool.eq_false_iff, List.isPrefixOf_iff_prefix]

/-- C2 counterexample: for the malformed entity tag of 32 zero hex digits
followed by `"zz"`, hex decoding fails (the tag is not a valid hex digest),
yet `Get` returns the 16 bytes decoded before the error — not a checksum
obtained by hashing the entity-tag string, whose MD5 digest
(`md5Oracle` at this tag) differs. -/
theorem get_checksum_counterexample :
    (goHexDecode "00000000000000000000000000000000zz".data).2 = false ∧
    goproxyCacherGet md5Oracle "k"
      (StatRes.found
        { key := "k", eTag := "00000000000000000000000000000000zz",
          lastModified := 0, size := 0 })
      (none : Option Unit) =
      Except.ok
        { streamKey := "k", modTime := 0,
          checksum := List.replicate 16 0 } ∧
    md5Oracle "00000000000000000000000000000000zz" ≠ List.replicate 16 0 := by
  refine ⟨by decide, by rfl, by decide⟩

/-- C2 (amended): with the object present and its stream opening
successfully, `Get` succeeds whatever the entity tag's format, returning the
derived checksum; when the tag is a 32-character string of hexadecimal
digits the checksum is exactly the tag's 16 decoded bytes; the fallback of
hashing the entity-tag string is used exactly when the longest even-length
hex-digit prefix of the tag decodes to a byte count other than 16. -/
theorem get_checksum_derivation {ε : Type} (md5Sum : String → List Nat)
    (name : String) (info : ObjectInfo) :
    (goproxyCacherGet md5Sum name (.found info) (none : Option ε) =
      Except.ok
        { streamKey := info.key, modTime := info.lastModified,
          checksum := deriveChecksum md5Sum info.eTag }) ∧
    (info.eTag.data.length = 32 →
      (∀ c ∈ info.eTag.data, (hexCharVal c).isSome) →
      deriveChecksum md5Sum info.eTag = (goHexDecode info.eTag.data).1) ∧
    ((goHexDecode info.eTag.data).1.length ≠ 16 →
      deriveChecksum md5Sum info.eTag = md5Sum info.eTag) ∧
    ((goHexDecode info.eTag.data).1.length = 16 →
      deriveChecksum md5Sum info.eTag = (goHexDecode info.eTag.data).1) := by
  refine ⟨rfl, fun hlen hval => ?_, fun hne => ?_, fun heq => ?_⟩
  · have h := goHexDecode_valid info.eTag.data hval (by omega)
    have : (goHexDecode info.eTag.data).1.length = 16 := by omega
    simp [deriveChecksum, this]
  · simp [deriveChecksum, hne]
  · simp [deriveChecksum, heq]

/-- C2 witness: the amended theorem evaluated at the valid hex tag
`"d41d8cd98f00b204e9800998ecf8427e"` (checksum is its decoded bytes) and at
the short malformed tag `"W/abc"` (checksum falls back to the hash of the
tag). -/
theorem get_checksum_derivation_witness :
    deriveChecksum (fun _ => List.replicate 16 7)
        "d41d8cd98f00b204e9800998ecf8427e" =
      (goHexDecode "d41d8cd98f00b204e9800998ecf8427e".data).1 ∧
    deriveChecksum (fun _ => List.replicate 16 7) "W/abc" =
      List.replicate 16 7 :=
  ⟨((@get_checksum_derivation Unit (fun _ => List.replicate 16 7) "n"
      { key := "n", eTag := "d41d8cd98f00b204e9800998ecf8427e",
        lastModified := 0, size := 0 }).2.1 (by decide) (by decide)),
   ((@get_checksum_derivation Unit (fun _ => List.replicate 16 7) "n"
      { key := "n", eTag := "W/abc", lastModified := 0, size := 0 }).2.2.1
      (by decide))⟩

/-- C6: `Get` fails with the `fs.ErrNotExist` sentinel and no stream when
the stat reports the object absent; any other stat error, and any error from
opening the object's byte stream, is returned to the caller unchanged. -/
theorem get_error_propagation {ε : Type} (md5Sum : String → List Nat)
    (name : String) (e : ε) (info : ObjectInfo) :
    (∀ getRes, goproxyCacherGet md5Sum name (.errNotFound : StatRes ε)
      getRes = .error .fsErrNotExist) ∧
    (∀ getRes, goproxyCacherGet md5Sum name (.errOther e) getRes =
      .error (.store e)) ∧
    (goproxyCacherGet md5Sum name (.found info) (some e) =
      .error (.store e)) :=
  ⟨fun _ => rfl, fun _ => rfl, rfl⟩

/-- C4: for an auto-redirect-eligible request name with auto-redirect
enabled and the object present in the store, a size strictly below the
configured minimum is served through the normal proxy path with no redirect;
a size at least the minimum (with the presign call succeeding) yields a
redirect to the URL pre-signed for that object with `7*24`-hour validity and
the extra query parameter `response-cache-control = public, max-age=604800`. -/
theorem hGoproxy_redirect_threshold {ε : Type} (minSize : Int)
    (rawPath : String) (info : ObjectInfo) (presignErr : Option ε)
    (helig : isAutoRedirectableGoproxyCache
      (goTrimPfx (goPathClean rawPath) "/") = true) :
    (info.size < minSize →
      hGoproxy true minSize rawPath (.found info) presignErr =
        .servedProxy) ∧
    (minSize ≤ info.size →
      hGoproxy true minSize rawPath (.found info) (none : Option ε) =
        .redirect
          { key := info.key
            expirySeconds := 604800
            query :=
              [("response-cache-control", ["public, max-age=604800"])] }) := by
  constructor
  · intro hlt
    simp [hGoproxy, helig, hlt]
  · intro hge
    simp [hGoproxy, helig, not_lt.mpr hge]

/-- C4 witness: with minimum size 1000 and the eligible request path
`/example.com/mod/@v/v1.0.0.zip`, an object of size 999 is proxied and an
object of size 1000 is redirected with a 604800-second pre-signed URL. -/
theorem hGoproxy_redirect_threshold_witness :
    hGoproxy true 1000 "/example.com/mod/@v/v1.0.0.zip"
      (StatRes.found
        { key := "example.com/mod/@v/v1.0.0.zip", eTag := "t",
          lastModified := 0, size := 999 })
      (none : Option String) = .servedProxy ∧
    hGoproxy true 1000 "/example.com/mod/@v/v1.0.0.zip"
      (StatRes.found
        { key := "example.com/mod/@v/v1.0.0.zip", eTag := "t",
          lastModified := 0, size := 1000 })
      (none : Option String) =
      .redirect
        { key := "example.com/mod/@v/v1.0.0.zip"
          expirySeconds := 604800
          query :=
            [("response-cache-control", ["public, max-age=604800"])] } :=
  ⟨(hGoproxy_redirect_threshold 1000 "/example.com/mod/@v/v1.0.0.zip"
      { key := "example.com/mod/@v/v1.0.0.zip", eTag := "t",
        lastModified := 0, size := 999 } (none : Option String)
      (by rfl)).1 (by decide),
   (hGoproxy_redirect_threshold 1000 "/example.com/mod/@v/v1.0.0.zip"
      { key := "example.com/mod/@v/v1.0.0.zip", eTag := "t",
        lastModified := 0, size := 1000 } (none : Option String)
      (by rfl)).2 (by decide)⟩

/-- C10: with auto-redirect enabled and an eligible cleaned name, a stat
error other than object-not-found is returned to the HTTP layer unchanged;
the request is neither served through the proxy path nor redirected. -/
theorem hGoproxy_statError_propagates {ε : Type} (minSize : Int)
    (rawPath : String) (e : ε) (presignErr : Option ε)
    (helig : isAutoRedirectableGoproxyCache
      (goTrimPfx (goPathClean rawPath) "/") = true) :
    hGoproxy true minSize rawPath (.errOther e) presignErr = .err e := by
  simp [hGoproxy, helig]

/-- C10 witness: a concrete non-not-found stat error surfaces from the
handler for an eligible path. -/
theorem hGoproxy_statError_propagates_witness :
    hGoproxy true 1000 "/example.com/mod/@v/v1.0.0.zip"
      (StatRes.errOther "connection reset") (none : Option String) =
      .err "connection reset" :=
  hGoproxy_statError_propagates 1000 "/example.com/mod/@v/v1.0.0.zip"
    "connection reset" none (by rfl)

/-- C1: when the first `Set` of a fresh key succeeds, a second sequential
`Set` for the same key — whatever its filesystem outcomes — finds the staged
file already present, returns success without reading its content stream and
without changing the cacher's state, and the state holds exactly one staged
file at the key's digest-derived path and exactly one pending-set registry
entry for the key. -/
theorem set_idempotent (digest : String → String) (st₀ : CacherState)
    (name : String) (size₁ size₂ : Nat) (ops₁ ops₂ : SetOps)
    (hfile : stagedPath digest st₀.localCacheRoot name ∉ st₀.paths)
    (hok : (goproxyCacherSet digest st₀ name size₁ ops₁).result = none) :
    goproxyCacherSet digest (goproxyCacherSet digest st₀ name size₁ ops₁).state
        name size₂ ops₂ =
      { state := (goproxyCacherSet digest st₀ name size₁ ops₁).state
        result := none
        contentRead := false } ∧
    (goproxyCacherSet digest st₀ name size₁ ops₁).state.paths.count
        (stagedPath digest st₀.localCacheRoot name) = 1 ∧
    ((goproxyCacherSet digest st₀ name size₁ ops₁).state.settingCaches.filter
        (fun e => e.1 == name)).length = 1 := by
  have hcount : st₀.paths.count (stagedPath digest st₀.localCacheRoot name) = 0 :=
    List.count_eq_zero.mpr hfile
  cases ops₁ with
  | mk s c cp cl =>
    cases s <;> cases c <;> cases cp <;> cases cl <;>
      simp_all [goproxyCacherSet, CacherState.paths, List.filter_filter,
        List.count_cons]

/-- C1 witness: a fresh key staged by a successful `Set` makes a second
`Set` (here with every filesystem call failing) a success that reads
nothing, and leaves one staged file and one registry entry. -/
theorem set_idempotent_witness :
    goproxyCacherSet (fun _ => "d")
        (goproxyCacherSet (fun _ => "d") ⟨"/t", [], [], false⟩ "k" 5
          ⟨false, false, false, false⟩).state "k" 7
        ⟨true, true, true, true⟩ =
      { state := (goproxyCacherSet (fun _ => "d") ⟨"/t", [], [], false⟩ "k" 5
          ⟨false, false, false, false⟩).state
        result := none
        contentRead := false } ∧
    (goproxyCacherSet (fun _ => "d") ⟨"/t", [], [], false⟩ "k" 5
        ⟨false, false, false, false⟩).state.paths.count
      (stagedPath (fun _ => "d") "/t" "k") = 1 ∧
    ((goproxyCacherSet (fun _ => "d") ⟨"/t", [], [], false⟩ "k" 5
        ⟨false, false, false, false⟩).state.settingCaches.filter
      (fun e => e.1 == "k")).length = 1 :=
  set_idempotent (fun _ => "d") ⟨"/t", [], [], false⟩ "k" 5 7
    ⟨false, false, false, false⟩ ⟨true, true, true, true⟩
    (by decide) (by decide)

/-- C7: for a fresh key (with the stat and create calls succeeding), a
failing copy or a failing close makes `Set` return that error with the
partial staged file deleted — the net state change is nil, in particular no
pending-set registry entry is added — and the key-to-path binding is stored
exactly when both the copy and the close succeed. -/
theorem set_failure_atomicity (digest : String → String) (st₀ : CacherState)
    (name : String) (size : Nat) (ops : SetOps)
    (hfile : stagedPath digest st₀.localCacheRoot name ∉ st₀.paths)
    (hstat : ops.statOther = false) (hcreate : ops.createErr = false) :
    (ops.copyErr = true →
      goproxyCacherSet digest st₀ name size ops =
        { state := { st₀ with started := true }
          result := some .copyErr
          contentRead := true }) ∧
    (ops.copyErr = false → ops.closeErr = true →
      goproxyCacherSet digest st₀ name size ops =
        { state := { st₀ with started := true }
          result := some .closeErr
          contentRead := true }) ∧
    (ops.copyErr = false → ops.closeErr = false →
      goproxyCacherSet digest st₀ name size ops =
        { state :=
            { st₀ with
              started := true
              files := (stagedPath digest st₀.localCacheRoot name, size) ::
                st₀.files
              settingCaches :=
                (name, stagedPath digest st₀.localCacheRoot name) ::
                  st₀.settingCaches.filter (·.1 ≠ name) }
          result := none
          contentRead := true }) := by
  refine ⟨fun hcp => ?_, fun hcp hcl => ?_, fun hcp hcl => ?_⟩ <;>
    simp_all [goproxyCacherSet, CacherState.paths]

/-- C7 witness: a copy failure on a fresh key returns the copy error and
leaves the staging state unchanged. -/
theorem set_failure_atomicity_witness :
    goproxyCacherSet (fun _ => "d") ⟨"/t", [], [], false⟩ "k" 3
        ⟨false, false, true, false⟩ =
      { state := ⟨"/t", [], [], true⟩
        result := some .copyErr
        contentRead := true } :=
  (set_failure_atomicity (fun _ => "d") ⟨"/t", [], [], false⟩ "k" 3
    ⟨false, false, true, false⟩ (by decide) rfl rfl).1 rfl

/-- C3: in a per-key synchronizer step that reaches the store stat (the
staged file opened and was statted successfully), a stat reporting the
object present drops the registry entry and deletes the local staged file
without any `PutObject` call; and in every per-key step whatsoever, a
`PutObject` call is issued only when the store stat reported
object-not-found. -/
theorem syncStep_never_overwrites {ε : Type} :
    (∀ (st : CacherState) (k v : String) (ops : SyncOps ε) (size : Nat)
        (info : ObjectInfo),
      st.files.lookup v = some size →
      ops.openOther = false → ops.fstatErr = false →
      ops.stat = .found info →
      (syncStep st k v ops).2 = none ∧
      (∀ e ∈ (syncStep st k v ops).1.settingCaches, e.1 ≠ k) ∧
      (∀ f ∈ (syncStep st k v ops).1.files, f.1 ≠ v)) ∧
    (∀ (st : CacherState) (k v : String) (ops : SyncOps ε) (args : PutArgs),
      (syncStep st k v ops).2 = some args → ops.stat = .errNotFound) := by
  constructor
  · intro st k v ops size info hlk ho hf hs
    refine ⟨by simp [syncStep, hlk, ho, hf, hs], ?_, ?_⟩ <;>
      simp [syncStep, hlk, ho, hf, hs, List.mem_filter]
  · intro st k v ops args h
    obtain ⟨o, f, s, p⟩ := ops
    cases hl : st.files.lookup v with
    | none => simp [syncStep, hl] at h
    | some size =>
      cases s with
      | errNotFound => rfl
      | found info => cases o <;> cases f <;> simp [syncStep, hl] at h
      | errOther e => cases o <;> cases f <;> simp [syncStep, hl] at h

/-- C3 witness: with the object already present remotely, a concrete step
issues no upload; and a concrete step that did upload had seen
object-not-found. -/
theorem syncStep_never_overwrites_witness :
    (syncStep ⟨"/t", [("/t/d", 3)], [("k", "/t/d")], true⟩ "k" "/t/d"
      (⟨false, false,
        .found { key := "k", eTag := "", lastModified := 0, size := 3 },
        false⟩ : SyncOps Unit)).2 = none ∧
    (⟨false, false, .errNotFound, false⟩ : SyncOps Unit).stat =
      .errNotFound :=
  ⟨((@syncStep_never_overwrites Unit).1
      ⟨"/t", [("/t/d", 3)], [("k", "/t/d")], true⟩ "k" "/t/d" _ 3
      { key := "k", eTag := "", lastModified := 0, size := 3 }
      rfl rfl rfl rfl).1,
   (@syncStep_never_overwrites Unit).2
      ⟨"/t", [("/t/d", 3)], [("k", "/t/d")], true⟩ "k" "/t/d"
      ⟨false, false, .errNotFound, false⟩
      { key := "k", size := 3, contentType := "", disableMultipart := true }
      rfl⟩

/-- C8: every `PutObject` call issued by a per-key synchronizer step uploads
under the entry's key with the staged file's byte count, a content type of
`application/json; charset=utf-8` for a `.info` key, `text/plain;
charset=utf-8` for `.mod`, `application/zip` for `.zip` and empty for every
other extension, and multipart disabled exactly when the size is strictly
below `256<<20 = 268435456` bytes (so a segmented transfer is used from that
threshold upward). -/
theorem syncStep_put_parameters {ε : Type} (st : CacherState) (k v : String)
    (ops : SyncOps ε) (args : PutArgs)
    (h : (syncStep st k v ops).2 = some args) :
    args.key = k ∧
    st.files.lookup v = some args.size ∧
    (goPathExt k = ".info" →
      args.contentType = "application/json; charset=utf-8") ∧
    (goPathExt k = ".mod" → args.contentType = "text/plain; charset=utf-8") ∧
    (goPathExt k = ".zip" → args.contentType = "application/zip") ∧
    (goPathExt k ≠ ".info" → goPathExt k ≠ ".mod" → goPathExt k ≠ ".zip" →
      args.contentType = "") ∧
    (args.disableMultipart = true ↔ args.size < 268435456) := by
  obtain ⟨o, f, s, p⟩ := ops
  cases hl : st.files.lookup v with
  | none => simp [syncStep, hl] at h
  | some size =>
    cases s with
    | found info => cases o <;> cases f <;> simp [syncStep, hl] at h
    | errOther e => cases o <;> cases f <;> simp [syncStep, hl] at h
    | errNotFound =>
      cases o with
      | true => simp [syncStep, hl] at h
      | false =>
        cases f with
        | true => simp [syncStep, hl] at h
        | false =>
          have h2 :
              (syncStep st k v
                (⟨false, false, .errNotFound, p⟩ : SyncOps ε)).2 =
                some
                  { key := k
                    size := size
                    contentType :=
                      if goPathExt k = ".info" then
                        "application/json; charset=utf-8"
                      else if goPathExt k = ".mod" then
                        "text/plain; charset=utf-8"
                      else if goPathExt k = ".zip" then "application/zip"
                      else ""
                    disableMultipart := decide (size < 256 <<< 20) } := by
            cases p <;> simp [syncStep, hl]
          obtain rfl := Option.some.inj (h2.symm.trans h)
          refine ⟨rfl, by simp [hl], fun h1 => by simp [h1],
            fun h1 => by simp [h1], fun h1 => by simp [h1],
            fun h1 h2 h3 => by simp [h1, h2, h3], ?_⟩
          simp only [decide_eq_true_eq, Nat.shiftLeft_eq]

/-- C8 witness: uploading the staged file of a `.zip` key of size 5 uses
content type `application/zip` with multipart disabled. -/
theorem syncStep_put_parameters_witness :
    (syncStep ⟨"/t", [("/t/d", 5)], [("a/@v/v1.zip", "/t/d")], true⟩
      "a/@v/v1.zip" "/t/d"
      (⟨false, false, .errNotFound, false⟩ : SyncOps Unit)).2 =
      some
        { key := "a/@v/v1.zip", size := 5,
          contentType := "application/zip", disableMultipart := true } ∧
    "application/zip" = "application/zip" ∧ (5 : Nat) < 268435456 :=
  ⟨rfl,
   (syncStep_put_parameters ⟨"/t", [("/t/d", 5)], [("a/@v/v1.zip", "/t/d")],
      true⟩ "a/@v/v1.zip" "/t/d"
      (⟨false, false, .errNotFound, false⟩ : SyncOps Unit)
      { key := "a/@v/v1.zip", size := 5, contentType := "application/zip",
        disableMultipart := true } rfl).2.2.2.2.1 (by rfl),
   (syncStep_put_parameters ⟨"/t", [("/t/d", 5)], [("a/@v/v1.zip", "/t/d")],
      true⟩ "a/@v/v1.zip" "/t/d"
      (⟨false, false, .errNotFound, false⟩ : SyncOps Unit)
      { key := "a/@v/v1.zip", size := 5, contentType := "application/zip",
        disableMultipart := true } rfl).2.2.2.2.2.2.mp rfl⟩

/-- The retry loop makes at most as many attempts as it has iterations. -/
theorem removeAllLoop_le (ok : Nat → Bool) :
    ∀ n i, (removeAllLoop ok i n).1 ≤ n := by
  intro n
  induction n with
  | zero => intro i; simp [removeAllLoop]
  | succ n ih =>
    intro i
    by_cases h : ok i
    · simp [removeAllLoop, h]
    · simpa [removeAllLoop, h] using ih (i + 1)

/-- The retry loop stops at its first successful attempt: if attempt `i + j`
is the first to succeed among the attempts starting at `i`, and at least
`j + 1` iterations remain, the loop makes exactly `j + 1` attempts and
reports success. -/
theorem removeAllLoop_first (ok : Nat → Bool) :
    ∀ n i j, j < n → ok (i + j) = true →
      (∀ d, d < j → ok (i + d) = false) →
      removeAllLoop ok i n = (j + 1, true) := by
  intro n
  induction n with
  | zero => intro i j hj; omega
  | succ n ih =>
    intro i j hj hok hmin
    by_cases h0 : ok i
    · have hj0 : j = 0 := by
        by_contra hne
        have h := hmin 0 (Nat.pos_of_ne_zero hne)
        rw [Nat.add_zero] at h
        rw [h0] at h
        exact Bool.true_eq_false.mp h
      subst hj0
      simp [removeAllLoop, h0]
    · have hjne : j ≠ 0 := by
        intro hj0
        subst hj0
        rw [Nat.add_zero] at hok
        exact h0 hok
      obtain ⟨j', rfl⟩ : ∃ j', j = j' + 1 := ⟨j - 1, by omega⟩
      have hrec := ih (i + 1) j' (by omega)
        (by rw [show i + 1 + j' = i + (j' + 1) by omega]; exact hok)
        (fun d hd => by
          rw [show i + 1 + d = i + (d + 1) by omega]
          exact hmin (d + 1) (by omega))
      simp [removeAllLoop, h0, hrec]

/-- Any successful attempt within the iteration budget makes the loop
report success. -/
theorem removeAllLoop_exists (ok : Nat → Bool) :
    ∀ n i, (∃ d, d < n ∧ ok (i + d) = true) →
      (removeAllLoop ok i n).2 = true := by
  intro n
  induction n with
  | zero => intro i h; omega
  | succ n ih =>
    intro i ⟨d, hd, hok⟩
    by_cases h0 : ok i
    · simp [removeAllLoop, h0]
    · have hdne : d ≠ 0 := by
        intro h
        subst h
        rw [Nat.add_zero] at hok
        exact h0 hok
      have := ih (i + 1)
        ⟨d - 1, by omega, by rw [show i + 1 + (d - 1) = i + d by omega]; exact hok⟩
      simpa [removeAllLoop, h0] using this

/-- C9: the shutdown job sleeps one second before each removal attempt,
makes at most 60 attempts, exits the loop at the first successful attempt
(making exactly `j + 1` attempts when attempt `j` is the first to succeed),
and whenever some attempt in the 60-attempt budget succeeds — including
after transient failures — the staging root ends up removed. -/
theorem shutdown_cleanup_bounded (ok : Nat → Bool) :
    (shutdownJob ok).1 ≤ 60 ∧
    (∀ j, j < 60 → ok j = true → (∀ i, i < j → ok i = false) →
      shutdownJob ok = (j + 1, true)) ∧
    ((∃ j, j < 60 ∧ ok j = true) → (shutdownJob ok).2 = true) := by
  refine ⟨removeAllLoop_le ok 60 0, fun j hj hok hmin => ?_, fun h => ?_⟩
  · exact removeAllLoop_first ok 60 0 j hj (by simpa using hok)
      (fun d hd => by simpa using hmin d hd)
  · obtain ⟨j, hj, hok⟩ := h
    exact removeAllLoop_exists ok 60 0 ⟨j, hj, by simpa using hok⟩

/-- C9 witness: with the first removal attempt failing transiently and the
second succeeding, the shutdown job stops after exactly two attempts with
the staging root removed, within the 60-attempt budget. -/
theorem shutdown_cleanup_bounded_witness :
    (fun i => decide (i = 1)) 0 = false ∧
    shutdownJob (fun i => decide (i = 1)) = (2, true) ∧
    (shutdownJob (fun i => decide (i = 1))).1 ≤ 60 :=
  ⟨by decide,
   (shutdown_cleanup_bounded (fun i => decide (i = 1))).2.1 1 (by decide)
     (by decide) (by decide),
   (shutdown_cleanup_bounded (fun i => decide (i = 1))).1⟩

end GoproxyCN
